import Mathlib

/-!
Verification of the question-lifecycle manager of `v-mcp-copilot-feedback`.

The definitions below are a shallow embedding of
`src/server/utility/context_manager.py` (the `QuestionRecord` dataclass and
`QuestionContextManager`), `src/server/utility/config.py`
(`require_api_key`), `src/server/tools/polling.py` and
`src/server/tools/ask_question.py`.  `datetime` values become integers
(seconds); `timedelta(seconds=ttl)` becomes integer addition; Python
exceptions become `Except` values; the mutable `dict` of records becomes an
association list whose observable interface is `lookupReg`.
-/

namespace Feedback

/-- Errors raised by the registry: `QuestionNotFoundError` (a `KeyError`)
and `QuestionAccessError` / `PermissionError` (access denied). -/
inductive RegistryError where
  | notFound (id : String)
  | accessDenied
deriving DecidableEq, Repr

/-- Embedding of the `QuestionRecord` dataclass: timestamps are integers,
`answer`/`answered_at` start absent, `expired` starts `false`. -/
structure QuestionRecord where
  question_id : String
  auth_key : String
  question : String
  preset_answers : List String
  created_at : Int
  ttl_seconds : Int
  answer : Option String
  answered_at : Option Int
  expired : Bool
deriving DecidableEq, Repr

/-- Embedding of `QuestionRecord.is_answered`: the answer is present. -/
def QuestionRecord.is_answered (r : QuestionRecord) : Bool :=
  r.answer.isSome

/-- Embedding of `QuestionRecord.has_expired`: `now >= created_at + timedelta(seconds=ttl_seconds)`. -/
def QuestionRecord.has_expired (r : QuestionRecord) (now : Int) : Bool :=
  decide (r.created_at + r.ttl_seconds ≤ now)

/-- Embedding of `QuestionRecord.status`: the four-branch status derivation. -/
def QuestionRecord.status (r : QuestionRecord) (now : Int) : String :=
  if r.expired then "expired"
  else if r.is_answered then "answered"
  else if r.has_expired now then "expired"
  else "pending"

/-- Embedding of `QuestionRecord.mark_answer`: no-op when already answered, otherwise
store the answer text and timestamp. -/
def QuestionRecord.mark_answer (r : QuestionRecord) (ans : String) (now : Int) :
    QuestionRecord :=
  if r.is_answered then r
  else { r with answer := some ans, answered_at := some now }

/-- Embedding of `QuestionRecord.mark_expired`: no-op when already answered, otherwise
store the fallback answer, the timestamp, and set the expired flag. -/
def QuestionRecord.mark_expired (r : QuestionRecord) (fb : String) (now : Int) :
    QuestionRecord :=
  if r.is_answered then r
  else { r with answer := some fb, answered_at := some now, expired := true }

/-- The manager's `_records` dict, as an association list observed through
`lookupReg` (later bindings shadow earlier ones, like dict assignment). -/
abbrev Registry := List (String × QuestionRecord)

/-- Observable view of `self._records.get(question_id)`. -/
def lookupReg : Registry → String → Option QuestionRecord
  | [], _ => none
  | (k, v) :: rest, id => if k = id then some v else lookupReg rest id

/-- In-place mutation of the record stored under `id` (the Python code
mutates the record object held in the dict). -/
def updateReg (reg : Registry) (id : String) (r : QuestionRecord) : Registry :=
  reg.map (fun p => if p.1 = id then (id, r) else p)

/-- Dict assignment `self._records[record.question_id] = record`. -/
def insertReg (reg : Registry) (id : String) (r : QuestionRecord) : Registry :=
  (id, r) :: reg

/-- Embedding of `QuestionContextManager.purge_question`: `self._records.pop(question_id, None)`. -/
def purge_question (reg : Registry) (id : String) : Registry :=
  reg.filter (fun p => p.1 != id)

/-- Python `x or default` on `int | None`: `None` and `0` are falsy. -/
def pyOrInt (t : Option Int) (d : Int) : Int :=
  match t with
  | none => d
  | some v => if v = 0 then d else v

/-- The record constructed by `QuestionContextManager.create_question`.
The fresh `uuid4` id and `token_urlsafe` secret are nondeterministic inputs,
passed here as parameters; `created_at` is the current time `now`;
`ttl_seconds or default` uses Python falsy-or. -/
def create_question (dflt : Int) (fresh_id fresh_key : String) (question : String)
    (preset_answers : Option (List String)) (ttl_seconds : Option Int) (now : Int) :
    QuestionRecord :=
  { question_id := fresh_id
    auth_key := fresh_key
    question := question
    preset_answers := preset_answers.getD []
    created_at := now
    ttl_seconds := pyOrInt ttl_seconds dflt
    answer := none
    answered_at := none
    expired := false }

/-- The manager's `create_question` as a registry operation: build the record and store it
under its id. -/
def create_question_op (dflt : Int) (reg : Registry) (fresh_id fresh_key : String)
    (question : String) (preset_answers : Option (List String)) (ttl_seconds : Option Int)
    (now : Int) : Registry × QuestionRecord :=
  let r := create_question dflt fresh_id fresh_key question preset_answers ttl_seconds now
  (insertReg reg r.question_id r, r)

/-- Embedding of `QuestionContextManager.require_question`: lookup or `QuestionNotFoundError`. -/
def require_question (reg : Registry) (id : String) : Except RegistryError QuestionRecord :=
  match lookupReg reg id with
  | none => .error (.notFound id)
  | some r => .ok r

/-- Embedding of `QuestionContextManager.require_authorized_question`: lookup, then
`QuestionAccessError` unless `record.auth_key == auth_key` exactly. -/
def require_authorized_question (reg : Registry) (id key : String) :
    Except RegistryError QuestionRecord :=
  match require_question reg id with
  | .error e => .error e
  | .ok r => if r.auth_key ≠ key then .error .accessDenied else .ok r

/-- Embedding of `QuestionContextManager.ensure_ttl_state`: lazily mark an unanswered,
unflagged record expired once past its deadline. -/
def ensure_ttl_state (r : QuestionRecord) (fb : String) (now : Int) : QuestionRecord :=
  if !r.expired && !r.is_answered && r.has_expired now then r.mark_expired fb now
  else r

/-- Embedding of `QuestionContextManager.answer_question`: authorize, apply TTL rules,
then record the answer only when the record is still open; return the
(possibly updated) registry together with the record. -/
def answer_question (reg : Registry) (id key ans fb : String) (now : Int) :
    Except RegistryError (Registry × QuestionRecord) :=
  match require_authorized_question reg id key with
  | .error e => .error e
  | .ok r =>
    let r1 := ensure_ttl_state r fb now
    let r2 := if !r1.expired && !r1.is_answered then r1.mark_answer ans now else r1
    .ok (updateReg reg id r2, r2)

/-- Embedding of `QuestionContextManager.get_authorized_question_with_ttl`: authorize,
apply TTL rules, return the registry and the record. -/
def get_authorized_question_with_ttl (reg : Registry) (id key fb : String) (now : Int) :
    Except RegistryError (Registry × QuestionRecord) :=
  match require_authorized_question reg id key with
  | .error e => .error e
  | .ok r =>
    let r1 := ensure_ttl_state r fb now
    .ok (updateReg reg id r1, r1)

/-- Python `a or b` on `str | None`: `None` and the empty string are falsy. -/
def pyOrStr (a b : Option String) : Option String :=
  match a with
  | none => b
  | some s => if s = "" then b else some s

/-- Embedding of `require_api_key` from `config.py`: nothing to enforce when no key is
configured; otherwise the candidate is `provided_key or extract(ctx)` and a
mismatch raises `PermissionError`.  The header extraction result is the
parameter `ctx_key`. -/
def require_api_key (expected : String) (provided ctx_key : Option String) :
    Except RegistryError Unit :=
  if expected = "" then .ok ()
  else if pyOrStr provided ctx_key ≠ some expected then .error .accessDenied
  else .ok ()

/-- Error kinds surfaced by the MCP tools: `PermissionError` (bad API key or
auth key), `ValueError` (empty question), `KeyError` (unknown id). -/
inductive ToolError where
  | accessDenied
  | invalidInput
  | notFound (id : String)
deriving DecidableEq, Repr

/-- The structure returned by `build_poll_metadata` in `polling.py`. -/
structure PollMetadata where
  poll_interval_seconds : Int
  poll_instructions : String
  reply_tool : String
  reply_resource_template : String
deriving DecidableEq, Repr

/-- Embedding of `build_poll_metadata`: polling metadata shared by the MCP tools. -/
def build_poll_metadata (poll_interval_seconds : Int) : PollMetadata :=
  { poll_interval_seconds := poll_interval_seconds
    poll_instructions :=
      "Poll the reply resource every " ++ toString poll_interval_seconds ++
        " seconds for the answer."
    reply_tool := "get_reply"
    reply_resource_template := "resource://get_reply/\x7bquestion_id\x7d/\x7bauth_key\x7d" }

/-- Python `str.strip()`: drop leading and trailing whitespace.  Written
with structural recursion (`List.dropWhile`) so that proofs can evaluate
it. -/
def py_strip (s : String) : String :=
  ⟨((s.data.dropWhile Char.isWhitespace).reverse.dropWhile Char.isWhitespace).reverse⟩

/-- Embedding of `_sanitize_preset_answers` from `ask_question.py`: drop falsy entries,
strip the rest, keep the non-empty results. -/
def sanitize_preset_answers (preset_answers : Option (List String)) : List String :=
  (preset_answers.getD []).filterMap (fun a =>
    if a = "" then none
    else
      let text := py_strip a
      if text = "" then none else some text)

/-- The dictionary returned by the `ask_question` tool. -/
structure AskResult where
  poll : PollMetadata
  question_id : String
  auth_key : String
  status : String
  expires_in_seconds : Int
deriving DecidableEq, Repr

/-- The `ask_question` tool: check the API key, reject an empty question,
create the record with the configured TTL, and report `pending` with
`expires_in_seconds = record.ttl_seconds`.  The notifier call is
fire-and-forget and does not influence the returned value, so it is not
modelled. -/
def ask_question (expected : String) (provided ctx_key : Option String)
    (dflt cfg_ttl poll_interval : Int) (fresh_id fresh_key : String)
    (question : String) (preset_answers : Option (List String))
    (reg : Registry) (now : Int) : Except ToolError (Registry × AskResult) :=
  match require_api_key expected provided ctx_key with
  | .error _ => .error .accessDenied
  | .ok _ =>
    if py_strip question = "" then .error .invalidInput
    else
      let res := create_question_op dflt reg fresh_id fresh_key (py_strip question)
        (some (sanitize_preset_answers preset_answers)) (some cfg_ttl) now
      .ok (res.1,
        { poll := build_poll_metadata poll_interval
          question_id := res.2.question_id
          auth_key := res.2.auth_key
          status := "pending"
          expires_in_seconds := res.2.ttl_seconds })

/-- One public registry operation, with the nondeterministic inputs (fresh
id/secret, current time) made explicit. -/
inductive Op where
  | create (fresh_id fresh_key question : String) (preset_answers : Option (List String))
      (ttl_seconds : Option Int) (now : Int)
  | resolve (id key fb : String) (now : Int)
  | answer (id key ans fb : String) (now : Int)
  | purge (id : String)
deriving Repr

/-- Apply one operation to the registry; a raised error leaves the registry
unchanged. -/
def apply_op (dflt : Int) (reg : Registry) : Op → Registry
  | .create fid fkey q ps ttl now => (create_question_op dflt reg fid fkey q ps ttl now).1
  | .resolve id key fb now =>
    match get_authorized_question_with_ttl reg id key fb now with
    | .ok res => res.1
    | .error _ => reg
  | .answer id key ans fb now =>
    match answer_question reg id key ans fb now with
    | .ok res => res.1
    | .error _ => reg
  | .purge id => purge_question reg id

/-- Apply a sequence of operations in order. -/
def run_ops (dflt : Int) (reg : Registry) : List Op → Registry
  | [] => reg
  | op :: rest => run_ops dflt (apply_op dflt reg op) rest

/-- The three legal record states: open, answered by a human, answered by
the fallback.  `expired = true` with no answer is the excluded fourth
combination. -/
def wfRecord (r : QuestionRecord) : Prop :=
  (r.answer = none ∧ r.expired = false) ∨
  (r.answer.isSome = true ∧ r.expired = false) ∨
  (r.answer.isSome = true ∧ r.expired = true)

/-- Record-state monotonicity: a stored answer is never cleared or changed,
a set expired flag is never cleared. -/
def monoRecord (r r2 : QuestionRecord) : Prop :=
  (∀ a, r.answer = some a → r2.answer = some a) ∧
  (r.expired = true → r2.expired = true)

/-- Freshness of the nondeterministic id: `uuid4().hex` never collides with
an id already present in the registry. -/
def op_fresh (reg : Registry) : Op → Prop
  | .create fid _ _ _ _ _ => lookupReg reg fid = none
  | _ => True

/-! ### Registry lookup lemmas -/

theorem lookup_cons (k : String) (v : QuestionRecord) (rest : Registry) (j : String) :
    lookupReg ((k, v) :: rest) j = if k = j then some v else lookupReg rest j := rfl

theorem lookup_update_cases {reg : Registry} {id j : String} {rr v : QuestionRecord}
    (h : lookupReg (updateReg reg id rr) j = some v) :
    (j = id ∧ v = rr) ∨ lookupReg reg j = some v := by
  induction reg with
  | nil => simp [updateReg, lookupReg] at h
  | cons p rest ih =>
    obtain ⟨k, w⟩ := p
    simp only [updateReg, List.map_cons] at h
    by_cases hk : k = id
    · subst hk
      rw [if_pos rfl] at h
      by_cases hj : k = j
      · subst hj
        rw [lookup_cons, if_pos rfl] at h
        exact Or.inl ⟨rfl, (Option.some_injective _ h).symm⟩
      · rw [lookup_cons, if_neg hj] at h
        rcases ih h with ⟨hji, hv⟩ | hrest
        · exact absurd hji.symm hj
        · exact Or.inr (by rw [lookup_cons, if_neg hj]; exact hrest)
    · rw [if_neg hk] at h
      by_cases hj : k = j
      · subst hj
        rw [lookup_cons, if_pos rfl] at h
        exact Or.inr (by rw [lookup_cons, if_pos rfl]; exact h)
      · rw [lookup_cons, if_neg hj] at h
        rcases ih h with hl | hrest
        · exact Or.inl hl
        · exact Or.inr (by rw [lookup_cons, if_neg hj]; exact hrest)

theorem lookup_update_self {reg : Registry} {id : String} {r : QuestionRecord}
    (h : lookupReg reg id = some r) (rr : QuestionRecord) :
    lookupReg (updateReg reg id rr) id = some rr := by
  induction reg with
  | nil => simp [lookupReg] at h
  | cons p rest ih =>
    obtain ⟨k, w⟩ := p
    simp only [updateReg, List.map_cons]
    by_cases hk : k = id
    · subst hk
      rw [if_pos rfl, lookup_cons, if_pos rfl]
    · rw [lookup_cons, if_neg hk] at h
      rw [if_neg hk, lookup_cons, if_neg hk]
      exact ih h

theorem lookup_update_other {reg : Registry} {id j : String} (hj : j ≠ id)
    (rr : QuestionRecord) : lookupReg (updateReg reg id rr) j = lookupReg reg j := by
  induction reg with
  | nil => rfl
  | cons p rest ih =>
    obtain ⟨k, w⟩ := p
    simp only [updateReg, List.map_cons]
    by_cases hk : k = id
    · subst hk
      rw [if_pos rfl, lookup_cons, lookup_cons, if_neg (fun h => hj h.symm),
        if_neg (fun h => hj h.symm)]
      exact ih
    · rw [if_neg hk, lookup_cons, lookup_cons]
      by_cases hkj : k = j
      · rw [if_pos hkj, if_pos hkj]
      · rw [if_neg hkj, if_neg hkj]
        exact ih

theorem lookup_update_eq {reg : Registry} {id : String} {rr : QuestionRecord}
    (h : lookupReg reg id = some rr) (j : String) :
    lookupReg (updateReg reg id rr) j = lookupReg reg j := by
  by_cases hj : j = id
  · subst hj
    rw [lookup_update_self h, h]
  · exact lookup_update_other hj rr

theorem lookup_purge (reg : Registry) (id j : String) :
    lookupReg (purge_question reg id) j =
      if j = id then none else lookupReg reg j := by
  induction reg with
  | nil => simp [purge_question, lookupReg]
  | cons p rest ih =>
    obtain ⟨k, w⟩ := p
    simp only [purge_question, List.filter_cons] at ih ⊢
    by_cases hk : k = id <;> by_cases hj : k = j <;>
      simp_all [lookup_cons]

/-! ### Operation shape lemmas -/

theorem require_authorized_ok_iff {reg : Registry} {id key : String} {r : QuestionRecord} :
    require_authorized_question reg id key = .ok r ↔
      (lookupReg reg id = some r ∧ r.auth_key = key) := by
  unfold require_authorized_question require_question
  cases hl : lookupReg reg id with
  | none => simp
  | some r0 =>
    by_cases hk : r0.auth_key = key <;> simp [hk] <;> rintro rfl <;> exact hk

theorem require_authorized_denied {reg : Registry} {id key : String} {r : QuestionRecord}
    (h : lookupReg reg id = some r) (hk : r.auth_key ≠ key) :
    require_authorized_question reg id key = .error .accessDenied := by
  unfold require_authorized_question require_question
  rw [h]
  simp [hk]

theorem get_auth_ttl_eq {reg : Registry} {id key fb : String} {now : Int}
    {r : QuestionRecord} (h : lookupReg reg id = some r) (hk : r.auth_key = key) :
    get_authorized_question_with_ttl reg id key fb now =
      .ok (updateReg reg id (ensure_ttl_state r fb now), ensure_ttl_state r fb now) := by
  unfold get_authorized_question_with_ttl
  rw [require_authorized_ok_iff.mpr ⟨h, hk⟩]

theorem answer_question_eq {reg : Registry} {id key ans fb : String} {now : Int}
    {r : QuestionRecord} (h : lookupReg reg id = some r) (hk : r.auth_key = key) :
    answer_question reg id key ans fb now =
      (let r1 := ensure_ttl_state r fb now
       let r2 := if !r1.expired && !r1.is_answered then r1.mark_answer ans now else r1
       .ok (updateReg reg id r2, r2)) := by
  unfold answer_question
  rw [require_authorized_ok_iff.mpr ⟨h, hk⟩]

/-! ### Record-level lemmas -/

theorem ensure_ttl_state_answered {r : QuestionRecord} {fb : String} {now : Int}
    (h : r.is_answered = true) : ensure_ttl_state r fb now = r := by
  simp [ensure_ttl_state, h]

theorem ensure_ttl_state_flagged {r : QuestionRecord} {fb : String} {now : Int}
    (h : r.expired = true) : ensure_ttl_state r fb now = r := by
  simp [ensure_ttl_state, h]

theorem ensure_ttl_state_open {r : QuestionRecord} {fb : String} {now : Int}
    (hd : r.has_expired now = false) :
    ensure_ttl_state r fb now = r := by
  simp [ensure_ttl_state, hd]

theorem ensure_ttl_state_marks {r : QuestionRecord} {fb : String} {now : Int}
    (hexp : r.expired = false) (ha : r.answer = none) (hd : r.has_expired now = true) :
    ensure_ttl_state r fb now =
      { r with answer := some fb, answered_at := some now, expired := true } := by
  simp [ensure_ttl_state, QuestionRecord.is_answered, QuestionRecord.mark_expired,
    hexp, ha, hd]

theorem status_of_expired_flag {r : QuestionRecord} {now : Int} (h : r.expired = true) :
    r.status now = "expired" := by
  simp [QuestionRecord.status, h]

theorem status_of_answered {r : QuestionRecord} {now : Int} {a : String}
    (hexp : r.expired = false) (ha : r.answer = some a) :
    r.status now = "answered" := by
  simp [QuestionRecord.status, QuestionRecord.is_answered, hexp, ha]

/-! ### Invariant preservation -/

theorem wf_mark_answer {r : QuestionRecord} (h : wfRecord r) (ans : String) (now : Int) :
    wfRecord (r.mark_answer ans now) := by
  unfold QuestionRecord.mark_answer
  by_cases hia : r.is_answered = true
  · rw [if_pos hia]; exact h
  · rw [if_neg hia]
    cases he : r.expired
    · exact Or.inr (Or.inl (by simp [he]))
    · exact Or.inr (Or.inr (by simp [he]))

theorem wf_mark_expired {r : QuestionRecord} (h : wfRecord r) (fb : String) (now : Int) :
    wfRecord (r.mark_expired fb now) := by
  unfold QuestionRecord.mark_expired
  by_cases hia : r.is_answered = true
  · rw [if_pos hia]; exact h
  · rw [if_neg hia]
    exact Or.inr (Or.inr (by simp))

theorem wf_ensure {r : QuestionRecord} (h : wfRecord r) (fb : String) (now : Int) :
    wfRecord (ensure_ttl_state r fb now) := by
  unfold ensure_ttl_state
  split
  · exact wf_mark_expired h fb now
  · exact h

theorem monoRecord_refl (r : QuestionRecord) : monoRecord r r :=
  ⟨fun _ h => h, fun h => h⟩

theorem monoRecord_trans {r1 r2 r3 : QuestionRecord} (h12 : monoRecord r1 r2)
    (h23 : monoRecord r2 r3) : monoRecord r1 r3 :=
  ⟨fun a h => h23.1 a (h12.1 a h), fun h => h23.2 (h12.2 h)⟩

theorem mono_mark_answer (r : QuestionRecord) (ans : String) (now : Int) :
    monoRecord r (r.mark_answer ans now) := by
  unfold QuestionRecord.mark_answer
  by_cases hia : r.is_answered = true
  · rw [if_pos hia]; exact monoRecord_refl r
  · rw [if_neg hia]
    constructor
    · intro a h
      rw [QuestionRecord.is_answered, h] at hia
      simp at hia
    · intro h
      simpa using h

theorem mono_mark_expired (r : QuestionRecord) (fb : String) (now : Int) :
    monoRecord r (r.mark_expired fb now) := by
  unfold QuestionRecord.mark_expired
  by_cases hia : r.is_answered = true
  · rw [if_pos hia]; exact monoRecord_refl r
  · rw [if_neg hia]
    constructor
    · intro a h
      rw [QuestionRecord.is_answered, h] at hia
      simp at hia
    · intro _
      simp

theorem mono_ensure (r : QuestionRecord) (fb : String) (now : Int) :
    monoRecord r (ensure_ttl_state r fb now) := by
  unfold ensure_ttl_state
  split
  · exact mono_mark_expired r fb now
  · exact monoRecord_refl r

/-- Any successful `get_authorized_question_with_ttl` comes from a stored,
auth-matching record and returns exactly the TTL-adjusted registry. -/
theorem get_auth_ttl_ok_shape {reg : Registry} {id key fb : String} {now : Int}
    {res : Registry × QuestionRecord}
    (hga : get_authorized_question_with_ttl reg id key fb now = .ok res) :
    ∃ r0, lookupReg reg id = some r0 ∧ r0.auth_key = key ∧
      res = (updateReg reg id (ensure_ttl_state r0 fb now), ensure_ttl_state r0 fb now) := by
  unfold get_authorized_question_with_ttl at hga
  cases hra : require_authorized_question reg id key with
  | error e => rw [hra] at hga; cases hga
  | ok r0 =>
    obtain ⟨hl, hk⟩ := require_authorized_ok_iff.mp hra
    rw [hra] at hga
    cases hga
    exact ⟨r0, hl, hk, rfl⟩

/-- Any successful `answer_question` comes from a stored, auth-matching
record and returns exactly the TTL-adjusted, possibly answered registry. -/
theorem answer_question_ok_shape {reg : Registry} {id key ans fb : String} {now : Int}
    {res : Registry × QuestionRecord}
    (hga : answer_question reg id key ans fb now = .ok res) :
    ∃ r0, lookupReg reg id = some r0 ∧ r0.auth_key = key ∧
      res = (let r1 := ensure_ttl_state r0 fb now
             let r2 := if !r1.expired && !r1.is_answered then r1.mark_answer ans now else r1
             (updateReg reg id r2, r2)) := by
  unfold answer_question at hga
  cases hra : require_authorized_question reg id key with
  | error e => rw [hra] at hga; cases hga
  | ok r0 =>
    obtain ⟨hl, hk⟩ := require_authorized_ok_iff.mp hra
    rw [hra] at hga
    cases hga
    exact ⟨r0, hl, hk, rfl⟩

theorem wf_apply_op {dflt : Int} {reg : Registry} {op : Op}
    (hw : ∀ id r, lookupReg reg id = some r → wfRecord r) :
    ∀ id r, lookupReg (apply_op dflt reg op) id = some r → wfRecord r := by
  intro id r h
  cases op with
  | create fid fkey q ps ttl now =>
    simp only [apply_op, create_question_op, create_question, insertReg] at h
    rw [lookup_cons] at h
    split at h
    · cases h
      exact Or.inl ⟨rfl, rfl⟩
    · exact hw id r h
  | resolve qid key fb now =>
    simp only [apply_op] at h
    cases hga : get_authorized_question_with_ttl reg qid key fb now with
    | error e => rw [hga] at h; exact hw id r h
    | ok res =>
      rw [hga] at h
      obtain ⟨r0, hl0, _, hres⟩ := get_auth_ttl_ok_shape hga
      rw [hres] at h
      rcases lookup_update_cases h with ⟨_, rfl⟩ | hold
      · exact wf_ensure (hw qid r0 hl0) fb now
      · exact hw id r hold
  | answer qid key ans fb now =>
    simp only [apply_op] at h
    cases hga : answer_question reg qid key ans fb now with
    | error e => rw [hga] at h; exact hw id r h
    | ok res =>
      rw [hga] at h
      obtain ⟨r0, hl0, _, hres⟩ := answer_question_ok_shape hga
      rw [hres] at h
      rcases lookup_update_cases h with ⟨_, rfl⟩ | hold
      · have h1 := wf_ensure (hw qid r0 hl0) fb now
        split
        · exact wf_mark_answer h1 ans now
        · exact h1
      · exact hw id r hold
  | purge pid =>
    simp only [apply_op] at h
    rw [lookup_purge] at h
    split at h
    · cases h
    · exact hw id r h

theorem wf_run_ops {dflt : Int} (ops : List Op) :
    ∀ reg : Registry, (∀ id r, lookupReg reg id = some r → wfRecord r) →
      ∀ id r, lookupReg (run_ops dflt reg ops) id = some r → wfRecord r := by
  induction ops with
  | nil => intro reg hw; exact hw
  | cons op rest ih =>
    intro reg hw
    exact ih (apply_op dflt reg op) (wf_apply_op hw)

theorem mono_apply_op {dflt : Int} {reg : Registry} {op : Op} {id : String}
    {r r2 : QuestionRecord} (hfresh : op_fresh reg op)
    (h1 : lookupReg reg id = some r)
    (h2 : lookupReg (apply_op dflt reg op) id = some r2) :
    monoRecord r r2 := by
  cases op with
  | create fid fkey q ps ttl now =>
    simp only [op_fresh] at hfresh
    simp only [apply_op, create_question_op, create_question, insertReg] at h2
    rw [lookup_cons] at h2
    split at h2
    · next hfe =>
      rw [hfe, h1] at hfresh
      cases hfresh
    · rw [h1] at h2
      cases h2
      exact monoRecord_refl r
  | resolve qid key fb now =>
    simp only [apply_op] at h2
    cases hga : get_authorized_question_with_ttl reg qid key fb now with
    | error e =>
      rw [hga, h1] at h2
      cases h2
      exact monoRecord_refl r
    | ok res =>
      rw [hga] at h2
      obtain ⟨r0, hl0, _, hres⟩ := get_auth_ttl_ok_shape hga
      rw [hres] at h2
      rcases lookup_update_cases h2 with ⟨hid, rfl⟩ | hold
      · subst hid
        rw [hl0] at h1
        obtain rfl := Option.some_injective _ h1
        exact mono_ensure _ fb now
      · rw [h1] at hold
        cases hold
        exact monoRecord_refl r
  | answer qid key ans fb now =>
    simp only [apply_op] at h2
    cases hga : answer_question reg qid key ans fb now with
    | error e =>
      rw [hga, h1] at h2
      cases h2
      exact monoRecord_refl r
    | ok res =>
      rw [hga] at h2
      obtain ⟨r0, hl0, _, hres⟩ := answer_question_ok_shape hga
      rw [hres] at h2
      rcases lookup_update_cases h2 with ⟨hid, rfl⟩ | hold
      · subst hid
        rw [hl0] at h1
        obtain rfl := Option.some_injective _ h1
        split
        · exact monoRecord_trans (mono_ensure _ fb now) (mono_mark_answer _ ans now)
        · exact mono_ensure _ fb now
      · rw [h1] at hold
        cases hold
        exact monoRecord_refl r
  | purge pid =>
    simp only [apply_op] at h2
    rw [lookup_purge] at h2
    split at h2
    · cases h2
    · rw [h1] at h2
      cases h2
      exact monoRecord_refl r

/-! ### Claim theorems -/

/-- The status function as worded by the spec, for comparison with the
code's `QuestionRecord.status`. -/
def status_spec (r : QuestionRecord) (now : Int) : String :=
  if r.expired = true ∨ (r.answer = none ∧ r.created_at + r.ttl_seconds ≤ now) then "expired"
  else if r.answer.isSome = true ∧ r.expired = false then "answered"
  else "pending"

/-- C3: a record's status is a pure function of (now, created_at,
ttl_seconds, answer-present, expired-flag), and it equals the spec's
three-clause definition: expired if the flag is set or (unanswered and past
the deadline); answered if the answer is present and the flag is unset;
pending otherwise. -/
theorem status_pure_and_matches_spec :
    (∀ (r1 r2 : QuestionRecord) (now : Int),
      r1.expired = r2.expired → r1.answer.isSome = r2.answer.isSome →
      r1.created_at = r2.created_at → r1.ttl_seconds = r2.ttl_seconds →
      r1.status now = r2.status now) ∧
    (∀ (r : QuestionRecord) (now : Int), r.status now = status_spec r now) := by
  constructor
  · intro r1 r2 now he ha hc ht
    simp [QuestionRecord.status, QuestionRecord.is_answered, QuestionRecord.has_expired,
      he, ha, hc, ht]
  · intro r now
    cases he : r.expired
    · cases ha : r.answer <;> by_cases hd : r.created_at + r.ttl_seconds ≤ now <;>
        simp [QuestionRecord.status, status_spec, QuestionRecord.is_answered,
          QuestionRecord.has_expired, he, ha, hd]
    · simp [QuestionRecord.status, status_spec, he]

/-- Witness for C3 at two concrete records that differ only in fields the
status may not depend on. -/
theorem status_pure_and_matches_spec_witness :
    QuestionRecord.status ⟨"q1", "k1", "a", [], 0, 100, none, none, false⟩ 3 =
      QuestionRecord.status ⟨"q2", "k2", "b", ["Yes"], 0, 100, none, none, false⟩ 3 :=
  status_pure_and_matches_spec.1 _ _ 3 rfl rfl rfl rfl

/-- C10: `create_question` with `ttl_seconds` equal to `None` or `0`
silently falls back to the manager's default TTL and still produces a
fresh, unanswered, unflagged record. -/
theorem create_falsy_ttl_uses_default :
    ∀ (dflt : Int) (fid fkey q : String) (ps : Option (List String)) (now : Int),
      (create_question dflt fid fkey q ps none now).ttl_seconds = dflt ∧
      (create_question dflt fid fkey q ps (some 0) now).ttl_seconds = dflt ∧
      (create_question dflt fid fkey q ps none now).answer = none ∧
      (create_question dflt fid fkey q ps none now).expired = false ∧
      (create_question dflt fid fkey q ps (some 0) now).answer = none ∧
      (create_question dflt fid fkey q ps (some 0) now).expired = false := by
  intro dflt fid fkey q ps now
  refine ⟨rfl, ?_, rfl, rfl, rfl, rfl⟩
  simp [create_question, pyOrInt]

/-- A concrete pending record used by several witnesses. -/
def rPend : QuestionRecord :=
  ⟨"q1", "k1", "Ship v2?", ["Yes", "No"], 0, 100, none, none, false⟩

/-- C5 counterexample: `purge_question` removes a record whose status is
still `pending`, because `pop` is unconditional. -/
theorem purge_removes_pending_record :
    rPend.status 0 = "pending" ∧
    lookupReg (purge_question [("q1", rPend)] "q1") "q1" = none := by
  exact ⟨rfl, rfl⟩

/-- C5 (amended): `purge_question` removes the record for the given id
unconditionally — best-effort removal with no terminal-state precondition —
and leaves every other id untouched. -/
theorem purge_question_unconditional :
    ∀ (reg : Registry) (id : String),
      lookupReg (purge_question reg id) id = none ∧
      ∀ j, j ≠ id → lookupReg (purge_question reg id) j = lookupReg reg j := by
  intro reg id
  constructor
  · rw [lookup_purge]
    simp
  · intro j hj
    rw [lookup_purge, if_neg hj]

/-- Witness for C5's amended theorem on a one-record registry. -/
theorem purge_question_unconditional_witness :
    lookupReg (purge_question [("q1", rPend)] "q1") "q1" = none ∧
    lookupReg (purge_question [("q1", rPend)] "q1") "q2" = lookupReg [("q1", rPend)] "q2" :=
  ⟨(purge_question_unconditional [("q1", rPend)] "q1").1,
   (purge_question_unconditional [("q1", rPend)] "q1").2 "q2" (by decide)⟩

/-- C6: with no API key configured `require_api_key` never raises; with a
key configured, a missing or mismatching candidate raises `AccessDenied`
and `ask_question` fails before producing any registry state; an exactly
matching credential passes. -/
theorem api_key_enforcement :
    (∀ provided ctx_key : Option String, require_api_key "" provided ctx_key = .ok ()) ∧
    (∀ (expected : String) (provided ctx_key : Option String),
      expected ≠ "" → pyOrStr provided ctx_key ≠ some expected →
      require_api_key expected provided ctx_key = .error .accessDenied) ∧
    (∀ (expected : String) (ctx_key : Option String),
      require_api_key expected (some expected) ctx_key = .ok ()) ∧
    (∀ (expected : String) (provided ctx_key : Option String)
      (dflt cfg_ttl poll_interval : Int) (fid fkey q : String)
      (ps : Option (List String)) (reg : Registry) (now : Int),
      expected ≠ "" → pyOrStr provided ctx_key ≠ some expected →
      ask_question expected provided ctx_key dflt cfg_ttl poll_interval fid fkey q ps reg now =
        .error .accessDenied) := by
  refine ⟨?_, ?_, ?_, ?_⟩
  · intro provided ctx_key
    simp [require_api_key]
  · intro expected provided ctx_key he hm
    simp [require_api_key, he, hm]
  · intro expected ctx_key
    by_cases he : expected = "" <;> simp [require_api_key, pyOrStr, he]
  · intro expected provided ctx_key dflt cfg_ttl poll_interval fid fkey q ps reg now he hm
    simp [ask_question, require_api_key, he, hm]

/-- Witness for C6 at concrete keys. -/
theorem api_key_enforcement_witness :
    require_api_key "" none none = .ok () ∧
    require_api_key "secret" (some "wrong") none = .error .accessDenied ∧
    require_api_key "secret" (some "secret") none = .ok () ∧
    ask_question "secret" none (some "wrong") 300 120 30 "q1" "k1" "hello" none [] 0 =
      .error .accessDenied :=
  ⟨api_key_enforcement.1 none none,
   api_key_enforcement.2.1 "secret" (some "wrong") none (by decide) (by decide),
   api_key_enforcement.2.2.1 "secret" none,
   api_key_enforcement.2.2.2 "secret" none (some "wrong") 300 120 30 "q1" "k1" "hello" none [] 0
     (by decide) (by decide)⟩

/-- Reduced form of "create then immediately resolve": the record is stored
under the fresh id, the TTL check leaves it untouched before the deadline,
and its status is `pending`. -/
theorem create_resolve_shape {dflt : Int} {reg : Registry} {fid fkey q : String}
    {ps : Option (List String)} {ttl now now2 : Int} {fb : String}
    (httl : 0 < ttl) (hnow : now2 < now + ttl) :
    get_authorized_question_with_ttl
        (insertReg reg fid (create_question dflt fid fkey q ps (some ttl) now)) fid fkey fb
        now2 =
      .ok (updateReg (insertReg reg fid (create_question dflt fid fkey q ps (some ttl) now))
            fid (create_question dflt fid fkey q ps (some ttl) now),
          create_question dflt fid fkey q ps (some ttl) now) ∧
    (create_question dflt fid fkey q ps (some ttl) now).status now2 = "pending" ∧
    (create_question dflt fid fkey q ps (some ttl) now).ttl_seconds = ttl := by
  have hne : ttl ≠ 0 := by omega
  set rec := create_question dflt fid fkey q ps (some ttl) now with hrec
  have hl : lookupReg (insertReg reg fid rec) fid = some rec := by
    simp [insertReg, lookup_cons]
  have hexp : rec.expired = false := rfl
  have hans : rec.answer = none := rfl
  have hca : rec.created_at = now := rfl
  have httlv : rec.ttl_seconds = ttl := by
    rw [hrec]
    simp [create_question, pyOrInt, hne]
  have hhe : rec.has_expired now2 = false := by
    simp only [QuestionRecord.has_expired, hca, httlv, decide_eq_false_iff_not]
    omega
  have hens : ensure_ttl_state rec fb now2 = rec := ensure_ttl_state_open hhe
  refine ⟨?_, ?_, httlv⟩
  · rw [get_auth_ttl_eq hl (show rec.auth_key = fkey from rfl), hens]
  · simp [QuestionRecord.status, QuestionRecord.is_answered, hexp, hans, hhe]

/-- C7: a freshly created question with a positive TTL, resolved with the
returned id and secret before the deadline, has status `pending`; the
`ask_question` tool reports status `pending` with `expires_in_seconds`
equal to the requested TTL. -/
theorem fresh_question_pending :
    ∀ (dflt : Int) (reg : Registry) (fid fkey q : String) (ps : Option (List String))
      (ttl now now2 : Int) (fb : String) (provided ctx_key : Option String)
      (poll_interval : Int),
      0 < ttl → now2 < now + ttl →
      (let res := create_question_op dflt reg fid fkey q ps (some ttl) now
       get_authorized_question_with_ttl res.1 fid fkey fb now2 =
          .ok (updateReg res.1 fid res.2, res.2) ∧
        res.2.status now2 = "pending" ∧ res.2.ttl_seconds = ttl) ∧
      (py_strip q ≠ "" →
        ∃ res2, ask_question "" provided ctx_key dflt ttl poll_interval fid fkey q ps reg now =
            .ok res2 ∧ res2.2.status = "pending" ∧ res2.2.expires_in_seconds = ttl) := by
  intro dflt reg fid fkey q ps ttl now now2 fb provided ctx_key poll_interval httl hnow
  have hne : ttl ≠ 0 := by omega
  have hpy : pyOrInt (some ttl) dflt = ttl := by simp [pyOrInt, hne]
  constructor
  · exact create_resolve_shape httl hnow
  · intro hq
    have hreq : require_api_key "" provided ctx_key = .ok () := by
      simp [require_api_key]
    refine ⟨((create_question_op dflt reg fid fkey (py_strip q)
        (some (sanitize_preset_answers ps)) (some ttl) now).1,
      { poll := build_poll_metadata poll_interval
        question_id := fid
        auth_key := fkey
        status := "pending"
        expires_in_seconds := pyOrInt (some ttl) dflt }), ?_, rfl, hpy⟩
    simp only [ask_question, hreq, if_neg hq]
    rfl

/-- Witness for C7: scenario A with TTL 120 resolved at the creation
instant. -/
theorem fresh_question_pending_witness :
    (0 : Int) < 120 ∧ (0 : Int) < 0 + 120 ∧
    ((let res := create_question_op 300 [] "q1" "k1" "Ship v2?" (some ["Yes", "No"])
        (some 120) 0
      get_authorized_question_with_ttl res.1 "q1" "k1" "FB" 0 =
          .ok (updateReg res.1 "q1" res.2, res.2) ∧
        res.2.status 0 = "pending" ∧ res.2.ttl_seconds = 120) ∧
      (py_strip "Ship v2?" ≠ "" →
        ∃ res2, ask_question "" none none 300 120 30 "q1" "k1" "Ship v2?"
            (some ["Yes", "No"]) [] 0 =
            .ok res2 ∧ res2.2.status = "pending" ∧ res2.2.expires_in_seconds = 120)) :=
  ⟨by decide, by decide,
   fresh_question_pending 300 [] "q1" "k1" "Ship v2?" (some ["Yes", "No"]) 120 0 0 "FB"
     none none 30 (by decide) (by decide)⟩

/-- C8: for a stored record, any call with a non-matching secret fails with
`AccessDenied` on all three access paths, returns no record content, and
leaves the registry unchanged. -/
theorem wrong_secret_access_denied :
    ∀ (dflt : Int) (reg : Registry) (id key ans fb : String) (now : Int)
      (r : QuestionRecord),
      lookupReg reg id = some r → key ≠ r.auth_key →
      require_authorized_question reg id key = .error .accessDenied ∧
      get_authorized_question_with_ttl reg id key fb now = .error .accessDenied ∧
      answer_question reg id key ans fb now = .error .accessDenied ∧
      apply_op dflt reg (.resolve id key fb now) = reg ∧
      apply_op dflt reg (.answer id key ans fb now) = reg := by
  intro dflt reg id key ans fb now r hl hk
  have hra : require_authorized_question reg id key = .error .accessDenied :=
    require_authorized_denied hl (fun he => hk he.symm)
  have hg : get_authorized_question_with_ttl reg id key fb now = .error .accessDenied := by
    unfold get_authorized_question_with_ttl
    rw [hra]
  have hansq : answer_question reg id key ans fb now = .error .accessDenied := by
    unfold answer_question
    rw [hra]
  refine ⟨hra, hg, hansq, ?_, ?_⟩
  · simp [apply_op, hg]
  · simp [apply_op, hansq]

/-- Witness for C8 on a concrete record with a wrong secret. -/
theorem wrong_secret_access_denied_witness :
    require_authorized_question [("q1", rPend)] "q1" "bad" = .error .accessDenied ∧
    get_authorized_question_with_ttl [("q1", rPend)] "q1" "bad" "FB" 0 =
      .error .accessDenied ∧
    answer_question [("q1", rPend)] "q1" "bad" "Yes" "FB" 0 = .error .accessDenied ∧
    apply_op 300 [("q1", rPend)] (.resolve "q1" "bad" "FB" 0) = [("q1", rPend)] ∧
    apply_op 300 [("q1", rPend)] (.answer "q1" "bad" "Yes" "FB" 0) = [("q1", rPend)] :=
  wrong_secret_access_denied 300 [("q1", rPend)] "q1" "bad" "Yes" "FB" 0 rPend rfl
    (by decide)

/-- C9: a record answered by a human while unexpired is never touched again:
TTL evaluation is a no-op, later resolve/answer calls return it unchanged
(in the registry too), and its status stays `answered` at every time. -/
theorem answered_record_frame :
    ∀ (reg : Registry) (id : String) (r : QuestionRecord) (a fb ans : String) (now : Int),
      lookupReg reg id = some r → r.answer = some a → r.expired = false →
      ensure_ttl_state r fb now = r ∧
      get_authorized_question_with_ttl reg id r.auth_key fb now = .ok (updateReg reg id r, r) ∧
      answer_question reg id r.auth_key ans fb now = .ok (updateReg reg id r, r) ∧
      (∀ j, lookupReg (updateReg reg id r) j = lookupReg reg j) ∧
      r.status now = "answered" := by
  intro reg id r a fb ans now hl ha hexp
  have hia : r.is_answered = true := by
    simp [QuestionRecord.is_answered, ha]
  have hens : ensure_ttl_state r fb now = r := ensure_ttl_state_answered hia
  refine ⟨hens, ?_, ?_, lookup_update_eq hl, status_of_answered hexp ha⟩
  · rw [get_auth_ttl_eq hl rfl, hens]
  · rw [answer_question_eq hl rfl]
    simp only [hens, hia, Bool.not_true, Bool.and_false, Bool.false_and, if_neg]
    simp

/-- A concrete record answered by a human at time 5 with TTL 100, used by
the C9 witness. -/
def rHuman : QuestionRecord :=
  ⟨"q1", "k1", "Ship v2?", [], 0, 100, some "Yes", some 5, false⟩

/-- Witness for C9: a concrete human-answered record at a time past its
deadline. -/
theorem answered_record_frame_witness :
    ensure_ttl_state rHuman "FB" 500 = rHuman ∧
    get_authorized_question_with_ttl [("q1", rHuman)] "q1" rHuman.auth_key "FB" 500 =
      .ok (updateReg [("q1", rHuman)] "q1" rHuman, rHuman) ∧
    answer_question [("q1", rHuman)] "q1" rHuman.auth_key "No" "FB" 500 =
      .ok (updateReg [("q1", rHuman)] "q1" rHuman, rHuman) ∧
    (∀ j, lookupReg (updateReg [("q1", rHuman)] "q1" rHuman) j = lookupReg [("q1", rHuman)] j) ∧
    rHuman.status 500 = "answered" :=
  answered_record_frame [("q1", rHuman)] "q1" rHuman "Yes" "FB" "No" 500 rfl rfl rfl

/-- C2: once an `answer_question` call has actually recorded a text, every
further `answer_question` call — any text, any later time — returns the
existing record without error and leaves the stored answer equal to the
first accepted text. -/
theorem first_write_wins :
    ∀ (reg : Registry) (id : String) (r : QuestionRecord) (t1 fb1 : String) (now1 : Int),
      lookupReg reg id = some r → r.answer = none → r.expired = false →
      now1 < r.created_at + r.ttl_seconds →
      answer_question reg id r.auth_key t1 fb1 now1 =
        .ok (updateReg reg id { r with answer := some t1, answered_at := some now1 },
          { r with answer := some t1, answered_at := some now1 }) ∧
      ({ r with answer := some t1, answered_at := some now1 } : QuestionRecord).answer =
        some t1 ∧
      (∀ (reg2 : Registry) (t2 fb2 : String) (now2 : Int),
        lookupReg reg2 id = some { r with answer := some t1, answered_at := some now1 } →
        answer_question reg2 id r.auth_key t2 fb2 now2 =
          .ok (updateReg reg2 id { r with answer := some t1, answered_at := some now1 },
            { r with answer := some t1, answered_at := some now1 }) ∧
        (∀ j, lookupReg (updateReg reg2 id
            { r with answer := some t1, answered_at := some now1 }) j = lookupReg reg2 j)) := by
  intro reg id r t1 fb1 now1 hl hans hexp hnow
  have hia : r.is_answered = false := by
    simp [QuestionRecord.is_answered, hans]
  have hhe : r.has_expired now1 = false := by
    simp only [QuestionRecord.has_expired, decide_eq_false_iff_not]
    omega
  have hens : ensure_ttl_state r fb1 now1 = r := ensure_ttl_state_open hhe
  refine ⟨?_, rfl, ?_⟩
  · rw [answer_question_eq hl rfl]
    simp only [hens, hia, hexp, Bool.not_false, Bool.and_self, if_pos]
    simp [QuestionRecord.mark_answer, hia, hexp]
  · intro reg2 t2 fb2 now2 hl2
    have hia2 : ({ r with answer := some t1, answered_at := some now1 } :
        QuestionRecord).is_answered = true := by
      simp [QuestionRecord.is_answered]
    have hens2 : ensure_ttl_state { r with answer := some t1, answered_at := some now1 }
        fb2 now2 = { r with answer := some t1, answered_at := some now1 } :=
      ensure_ttl_state_answered hia2
    refine ⟨?_, lookup_update_eq hl2⟩
    rw [answer_question_eq hl2 rfl]
    simp only [hens2, hia2, Bool.not_true, Bool.and_false, if_neg]
    simp

/-- Witness for C2: record "Yes" at time 5, then try "No" at time 400 (past
the deadline). -/
theorem first_write_wins_witness :
    answer_question [("q1", rPend)] "q1" rPend.auth_key "Yes" "FB" 5 =
      .ok (updateReg [("q1", rPend)] "q1"
            { rPend with answer := some "Yes", answered_at := some 5 },
        { rPend with answer := some "Yes", answered_at := some 5 }) ∧
    ({ rPend with answer := some "Yes", answered_at := some 5 } : QuestionRecord).answer =
      some "Yes" ∧
    (answer_question [("q1", { rPend with answer := some "Yes", answered_at := some 5 })]
        "q1" rPend.auth_key "No" "FB" 400 =
      .ok (updateReg [("q1", { rPend with answer := some "Yes", answered_at := some 5 })]
            "q1" { rPend with answer := some "Yes", answered_at := some 5 },
        { rPend with answer := some "Yes", answered_at := some 5 }) ∧
      (∀ j, lookupReg (updateReg
          [("q1", { rPend with answer := some "Yes", answered_at := some 5 })] "q1"
          { rPend with answer := some "Yes", answered_at := some 5 }) j =
        lookupReg [("q1", { rPend with answer := some "Yes", answered_at := some 5 })] j)) :=
  have h := first_write_wins [("q1", rPend)] "q1" rPend "Yes" "FB" 5 rfl rfl rfl (by decide)
  ⟨h.1, h.2.1,
   h.2.2 [("q1", { rPend with answer := some "Yes", answered_at := some 5 })] "No" "FB" 400
     rfl⟩

/-- A concrete record answered by a human at time 5, with deadline 10. -/
def rAns : QuestionRecord :=
  ⟨"qa", "ka", "Ship v2?", [], 0, 10, some "Yes", some 5, false⟩

/-- C1 counterexample: at `now = 10 ≥ created_at + ttl_seconds`, a record
answered by a human before the deadline is reported `answered` with the
human's text, not `expired` with the fallback — refuting the claim's "for
every record" quantification. -/
theorem answered_past_deadline_not_expired :
    rAns.created_at + rAns.ttl_seconds ≤ 10 ∧
    get_authorized_question_with_ttl [("qa", rAns)] "qa" "ka" "FB" 10 =
      .ok ([("qa", rAns)], rAns) ∧
    rAns.status 10 = "answered" ∧
    rAns.status 10 ≠ "expired" ∧
    rAns.answer = some "Yes" ∧
    rAns.answer ≠ some "FB" := by
  refine ⟨by decide, rfl, rfl, by decide, rfl, by decide⟩

/-- C1 (amended): for every record still open (answer absent, expired flag
unset), once `now ≥ created_at + ttl_seconds` every `resolve_with_ttl` or
`answer` call observes status `expired` with the fallback answer, and
repeating either call leaves the record in that same state. -/
theorem expiry_idempotent :
    ∀ (reg : Registry) (id : String) (r : QuestionRecord) (fb ans : String) (now : Int),
      lookupReg reg id = some r → r.answer = none → r.expired = false →
      r.created_at + r.ttl_seconds ≤ now →
      answer_question reg id r.auth_key ans fb now =
        .ok (updateReg reg id
              { r with answer := some fb, answered_at := some now, expired := true },
          { r with answer := some fb, answered_at := some now, expired := true }) ∧
      get_authorized_question_with_ttl reg id r.auth_key fb now =
        .ok (updateReg reg id
              { r with answer := some fb, answered_at := some now, expired := true },
          { r with answer := some fb, answered_at := some now, expired := true }) ∧
      ({ r with answer := some fb, answered_at := some now, expired := true } :
        QuestionRecord).status now = "expired" ∧
      ({ r with answer := some fb, answered_at := some now, expired := true } :
        QuestionRecord).answer = some fb ∧
      (∀ (reg2 : Registry) (ans2 fb2 : String),
        lookupReg reg2 id =
          some { r with answer := some fb, answered_at := some now, expired := true } →
        get_authorized_question_with_ttl reg2 id r.auth_key fb2 now =
          .ok (updateReg reg2 id
                { r with answer := some fb, answered_at := some now, expired := true },
            { r with answer := some fb, answered_at := some now, expired := true }) ∧
        answer_question reg2 id r.auth_key ans2 fb2 now =
          .ok (updateReg reg2 id
                { r with answer := some fb, answered_at := some now, expired := true },
            { r with answer := some fb, answered_at := some now, expired := true }) ∧
        (∀ j, lookupReg (updateReg reg2 id
            { r with answer := some fb, answered_at := some now, expired := true }) j =
          lookupReg reg2 j)) := by
  intro reg id r fb ans now hl hans hexp hnow
  have hhe : r.has_expired now = true := by
    simp only [QuestionRecord.has_expired, decide_eq_true_eq]
    omega
  have hens : ensure_ttl_state r fb now =
      { r with answer := some fb, answered_at := some now, expired := true } :=
    ensure_ttl_state_marks hexp hans hhe
  have hia2 : ({ r with answer := some fb, answered_at := some now, expired := true } :
      QuestionRecord).is_answered = true := by
    simp [QuestionRecord.is_answered]
  refine ⟨?_, ?_, status_of_expired_flag rfl, rfl, ?_⟩
  · rw [answer_question_eq hl rfl]
    simp only [hens]
    simp
  · rw [get_auth_ttl_eq hl rfl, hens]
  · intro reg2 ans2 fb2 hl2
    have hens2 : ensure_ttl_state
        { r with answer := some fb, answered_at := some now, expired := true } fb2 now =
        { r with answer := some fb, answered_at := some now, expired := true } :=
      ensure_ttl_state_answered hia2
    refine ⟨?_, ?_, lookup_update_eq hl2⟩
    · rw [get_auth_ttl_eq hl2 rfl, hens2]
    · rw [answer_question_eq hl2 rfl]
      simp only [hens2, hia2, Bool.not_true, Bool.and_false, if_neg]
      simp

/-- The expired-by-fallback version of `rPend` at time 100. -/
def rExp : QuestionRecord :=
  { rPend with answer := some "FB", answered_at := some 100, expired := true }

/-- Witness for C1's amended theorem: expire `rPend` at time 100 (its
deadline), then repeat both calls on the expired registry. -/
theorem expiry_idempotent_witness :
    answer_question [("q1", rPend)] "q1" rPend.auth_key "late" "FB" 100 =
      .ok (updateReg [("q1", rPend)] "q1" rExp, rExp) ∧
    get_authorized_question_with_ttl [("q1", rPend)] "q1" rPend.auth_key "FB" 100 =
      .ok (updateReg [("q1", rPend)] "q1" rExp, rExp) ∧
    rExp.status 100 = "expired" ∧
    rExp.answer = some "FB" ∧
    (get_authorized_question_with_ttl [("q1", rExp)] "q1" rPend.auth_key "FB2" 100 =
      .ok (updateReg [("q1", rExp)] "q1" rExp, rExp) ∧
      answer_question [("q1", rExp)] "q1" rPend.auth_key "later" "FB2" 100 =
        .ok (updateReg [("q1", rExp)] "q1" rExp, rExp) ∧
      (∀ j, lookupReg (updateReg [("q1", rExp)] "q1" rExp) j = lookupReg [("q1", rExp)] j)) :=
  have h := expiry_idempotent [("q1", rPend)] "q1" rPend "FB" "late" 100 rfl rfl rfl
    (by decide)
  ⟨h.1, h.2.1, h.2.2.1, h.2.2.2.1, h.2.2.2.2 [("q1", rExp)] "later" "FB2" rfl⟩

/-- C4: every record reachable by any operation sequence from the empty
registry is in exactly one of the three legal states (the three disjuncts
of `wfRecord` are pairwise exclusive by construction); in particular the
expired flag never holds without an answer; and no single operation with a
fresh creation id ever clears a stored answer or a set expired flag. -/
theorem registry_reachable_invariant :
    ∀ dflt : Int,
      (∀ (ops : List Op) (id : String) (r : QuestionRecord),
        lookupReg (run_ops dflt [] ops) id = some r → wfRecord r) ∧
      (∀ (ops : List Op) (id : String) (r : QuestionRecord),
        lookupReg (run_ops dflt [] ops) id = some r →
        ¬(r.answer = none ∧ r.expired = true)) ∧
      (∀ (reg : Registry) (op : Op) (id : String) (r r2 : QuestionRecord),
        op_fresh reg op → lookupReg reg id = some r →
        lookupReg (apply_op dflt reg op) id = some r2 → monoRecord r r2) := by
  intro dflt
  have hempty : ∀ (id : String) (r : QuestionRecord), lookupReg [] id = some r → wfRecord r := by
    intro id r h
    cases h
  refine ⟨?_, ?_, ?_⟩
  · intro ops id r h
    exact wf_run_ops ops [] hempty id r h
  · intro ops id r h
    rcases wf_run_ops ops [] hempty id r h with ⟨ha, he⟩ | ⟨ha, he⟩ | ⟨ha, he⟩ <;>
      rintro ⟨ha2, he2⟩
    · rw [he] at he2
      cases he2
    · rw [ha2] at ha
      cases ha
    · rw [ha2] at ha
      cases ha
  · intro reg op id r r2 hf h1 h2
    exact mono_apply_op hf h1 h2

/-- The record created by the witness run for C4. -/
def recW : QuestionRecord :=
  create_question 300 "q1" "k1" "Ship v2?" (some ["Yes", "No"]) (some 120) 0

/-- Witness for C4: create a record, look it up after the run, and answer it
one step later. -/
theorem registry_reachable_invariant_witness :
    wfRecord recW ∧
    ¬(recW.answer = none ∧ recW.expired = true) ∧
    monoRecord recW { recW with answer := some "Yes", answered_at := some 5 } :=
  ⟨(registry_reachable_invariant 300).1
      [.create "q1" "k1" "Ship v2?" (some ["Yes", "No"]) (some 120) 0] "q1" _ rfl,
   (registry_reachable_invariant 300).2.1
      [.create "q1" "k1" "Ship v2?" (some ["Yes", "No"]) (some 120) 0] "q1" _ rfl,
   (registry_reachable_invariant 300).2.2 [("q1", recW)]
      (.answer "q1" "k1" "Yes" "FB" 5) "q1" _ _ trivial rfl rfl⟩

end Feedback
